import Mathlib

/-!
Verification of the translink acquisition-and-normalization pipeline.

The definitions below are a shallow embedding of the TypeScript source:

* `Translink.getPositions`, `Translink.getAlerts`, `Translink.getTrips`,
  `Translink.getStatic` from src/translink.ts;
* `unzip` from src/zip.ts;
* `AwsStorage.put`, `GoogleStorage.put`, `GoogleClient.getToken` /
  `GoogleClient.refreshToken` / `GoogleClient.fetch` from the storage module.

JavaScript numbers that the code produces with `parseInt` are modelled as
`Option Int` (`none` is `NaN`) or as the tagged `JSVal`; coordinates are
modelled as rationals; thrown `Error`s become `Except.error` values carrying
the same interpolated data; the HTTP layer is passed in as an explicit
response oracle.
-/

namespace Translink

/-! ## JavaScript primitives -/

/-- JavaScript `parseInt` with the default radix 10: skip leading whitespace,
read an optional sign and then the longest digit prefix; `none` models `NaN`
(no digits). The hexadecimal `0x` prefix is not modelled: every string the
pipeline parses is decimal. -/
def jsParseInt (s : String) : Option Int :=
  let cs := s.data.dropWhile Char.isWhitespace
  let neg : Bool := cs.head? = some '-'
  let cs := if cs.head? = some '-' || cs.head? = some '+' then cs.tail else cs
  let ds := cs.takeWhile Char.isDigit
  if ds.isEmpty then none
  else
    let n : Nat := ds.foldl (fun a c => a * 10 + (c.toNat - 48)) 0
    some (if neg then -(n : Int) else (n : Int))

/-- JavaScript `parseInt` applied to a field that may be `undefined`
(`parseInt(undefined)` is `NaN`). -/
def jsParseIntOpt (s : Option String) : Option Int :=
  match s with
  | none => none
  | some s => jsParseInt s

/-- A JavaScript value as the pipeline stores it in a record field: a number,
a string, or `NaN`. -/
inductive JSVal where
  | num (n : Int)
  | str (s : String)
  | nan
deriving Repr, DecidableEq

/-- The `JSVal` that `parseInt` produces. -/
def jsParseIntVal (s : String) : JSVal :=
  match jsParseInt s with
  | some n => .num n
  | none => .nan

/-- JavaScript `a.startsWith(b)` on code points. -/
def jsStartsWith (a b : String) : Bool :=
  b.data.isPrefixOf a.data

/-- JavaScript `s.slice(a, b)` for `0 ≤ a ≤ b` on code points. -/
def jsSlice (s : String) (a b : Nat) : String :=
  ((s.data.drop a).take (b - a)).asString

/-- JavaScript `String.prototype.trim`: strip whitespace from both ends. -/
def jsTrim (s : String) : String :=
  (((s.data.dropWhile Char.isWhitespace).reverse.dropWhile
    Char.isWhitespace).reverse).asString

/-! ## Realtime vehicle positions (`Translink.getPositions`) -/

/-- A decoded `vehicle` entity of the realtime feed: exactly the fields
`Translink.getPositions` reads. Coordinates are the decoded `position`
floats, modelled as rationals. -/
structure RawVehicle where
  vehicleId : String
  tripId : String
  routeId : String
  directionId : Int
  currentStopSequence : Int
  longitude : Rat
  latitude : Rat
  timestamp : Int
  startDate : String
deriving Repr, DecidableEq

/-- The `Position` record that `Translink.getPositions` builds. -/
structure PositionRec where
  insertId : String
  vehicle : Option Int
  trip : Option Int
  route : Option Int
  direction : Int
  stop : Int
  longitude : Rat
  latitude : Rat
  timestamp : Int
  date : String
deriving Repr, DecidableEq

/-- The body of the `map` in `Translink.getPositions` (translink.ts lines
106-125): every entity is mapped, field by field, to a `Position`. -/
def toPosition (raw : RawVehicle) : PositionRec where
  insertId := raw.vehicleId ++ "-" ++ toString raw.timestamp
  vehicle := jsParseInt raw.vehicleId
  trip := jsParseInt raw.tripId
  route := jsParseInt raw.routeId
  direction := raw.directionId
  stop := raw.currentStopSequence
  longitude := raw.longitude
  latitude := raw.latitude
  timestamp := raw.timestamp
  date := String.intercalate "-"
    [jsSlice raw.startDate 0 4, jsSlice raw.startDate 4 6, jsSlice raw.startDate 6 8]

/-- `Translink.getPositions` after the feed has been fetched and decoded:
`response.map(entity => ...)` over the decoded vehicle entities. The source
applies no filter of any kind to the entities. -/
def getPositions (entities : List RawVehicle) : List PositionRec :=
  entities.map toPosition

/-- A vehicle entity whose decoded position is exactly (0, 0): the sentinel
for a location that was never acquired. -/
def zeroVehicle : RawVehicle where
  vehicleId := "3301"
  tripId := "9500000"
  routeId := "6636"
  directionId := 0
  currentStopSequence := 1
  longitude := 0
  latitude := 0
  timestamp := 1600000000
  startDate := "20200915"

/-! ## CSV tables (the papaparse call in `Translink.getStatic`) -/

/-- A parsed table row: fields keyed by the header names, in header order,
as `parse(data, header: true)` produces. -/
abbrev CsvRow := List (String × String)

/-- Reading a field of a parsed row, `trip.trip_id` style. A missing key
yields `""` (the rows the pipeline builds always carry every header key). -/
def getField (row : CsvRow) (key : String) : String :=
  (List.lookup key row).getD ""

/-- A row-level error of the tabular parser (papaparse reports the data-row
index and a code such as TooFewFields). -/
structure ParseError where
  row : Nat
  message : String
deriving Repr, DecidableEq

/-- The result of the tabular parser: the parsed rows and the collected
row-level errors. -/
structure ParseResult where
  data : List CsvRow
  errors : List ParseError
deriving Repr, DecidableEq

/-- Splits one CSV line into fields: fields are separated by commas, a
double quote opens a quoted section, a doubled quote inside one is a
literal quote. Models the delimited-text format papaparse reads. -/
def csvFieldsGo : List Char → String → List String → Bool → List String
  | [], cur, acc, _ => acc ++ [cur]
  | '"' :: '"' :: rest, cur, acc, true => csvFieldsGo rest (cur.push '"') acc true
  | '"' :: rest, cur, acc, true => csvFieldsGo rest cur acc false
  | '"' :: rest, cur, acc, false => csvFieldsGo rest cur acc true
  | ',' :: rest, cur, acc, false => csvFieldsGo rest "" (acc ++ [cur]) false
  | c :: rest, cur, acc, q => csvFieldsGo rest (cur.push c) acc q

/-- The fields of one CSV line. -/
def csvFields (line : String) : List String :=
  csvFieldsGo line.data "" [] false

/-- Splits text into lines at a line feed, dropping a trailing carriage
return. -/
def csvLines (s : String) : List String :=
  ((s.data.splitOn '\n').map fun l =>
    (if l.getLast? = some '\r' then l.dropLast else l).asString)

/-- Whether a line is entirely blank (`skipEmptyLines: 'greedy'` drops it). -/
def blankLine (l : String) : Bool :=
  l.data.all Char.isWhitespace

/-- The papaparse call of `Translink.getStatic`:
`parse(data, header: true, skipEmptyLines: 'greedy')`. The first
non-blank line is the header; every further non-blank line becomes a row
keyed by the header names; a line whose field count differs from the
header's is collected as a row error. -/
def papaParse (text : String) : ParseResult :=
  match (csvLines text).filter (fun l => !blankLine l) with
  | [] => { data := [], errors := [] }
  | header :: rows =>
    let names := csvFields header
    let parsed := rows.enum.map fun p =>
      let fs := csvFields p.2
      if fs.length = names.length then Sum.inl (names.zip fs)
      else
        let msg := if fs.length < names.length then "TooFewFields" else "TooManyFields"
        Sum.inr (ParseError.mk p.1 msg)
    { data := parsed.filterMap Sum.getLeft?,
      errors := parsed.filterMap Sum.getRight? }

/-! ## The schedule snapshot fetch (`Translink.getStatic`, src/zip.ts) -/

/-- An HTTP response as the fetches observe it. -/
structure HttpResponse where
  ok : Bool
  status : Nat
  statusText : String
deriving Repr, DecidableEq

/-- A member of the downloaded zip archive, as jszip lists it. -/
structure ZipEntry where
  path : String
  isDir : Bool
  content : String
deriving Repr, DecidableEq

/-- `Map.set`: replaces the value under an existing key, else appends. -/
def mapSet (m : List (String × String)) (k v : String) : List (String × String) :=
  if m.any (fun p => p.1 = k) then m.map (fun p => if p.1 = k then (k, v) else p)
  else m ++ [(k, v)]

/-- `unzip` from src/zip.ts lines 10-27: walk the archive entries, skip
directories and hidden paths, keep only the requested paths when any are
requested, and collect path-to-content into a map. -/
def unzip (entries : List ZipEntry) (paths : List String) : List (String × String) :=
  entries.foldl
    (fun result e =>
      if e.isDir || jsStartsWith e.path "." then result
      else if 0 < paths.length && !(paths.contains e.path) then result
      else mapSet result e.path e.content)
    []

/-- A thrown `Error` of `Translink.getStatic`, with the data the message
interpolates. -/
inductive StaticError where
  | badResponse (date : String) (statusText : String)
  | unknownFile (date : String) (resource : String)
  | parseFailure (date : String) (errors : List ParseError)
deriving Repr, DecidableEq

/-- The `cf` fetch options. -/
structure CfOptions where
  cacheTtl : Nat
  cacheEverything : Bool
deriving Repr, DecidableEq

/-- The fetch options `Translink.getStatic` passes (translink.ts line 277):
`cacheTtl: 60 * 60, cacheEverything: true`. -/
def staticFetchOptions : CfOptions where
  cacheTtl := 60 * 60
  cacheEverything := true

/-- The fetch options `Translink.getFeed` passes (translink.ts line 258):
the realtime fetch names no options at all, so no cache ttl is specified
for realtime feeds. -/
def feedFetchOptions : Option CfOptions := none

/-- `Translink.getStatic` (translink.ts lines 276-299) after the date was
formatted: check the response, extract the requested member with `unzip`,
fail when the member is absent (the source tests JavaScript truthiness, so
an empty member counts as absent), parse it, fail when the parser collected
any row errors, and otherwise return the parsed rows. -/
def getStatic (date : String) (resource : String) (response : HttpResponse)
    (entries : List ZipEntry) : Except StaticError (List CsvRow) :=
  if !response.ok then .error (.badResponse date response.statusText)
  else
    match List.lookup resource (unzip entries [resource]) with
    | none => .error (.unknownFile date resource)
    | some data =>
      if data = "" then .error (.unknownFile date resource)
      else if 0 < (papaParse data).errors.length then
        .error (.parseFailure date (papaParse data).errors)
      else .ok (papaParse data).data

/-! ## Trips (`Translink.getTrips`) -/

/-- The fixed exclusion set of non-bus service lines (translink.ts line
185), in insertion order. -/
def excludes : List String :=
  ["CANADA LINE", "EXPO LINE", "MILLENNIUM LINE", "SEABUS", "WEST COAST EXPRESS"]

/-- The drop test of `Translink.getTrips`: the loop returns `[]` as soon as
`exclude.startsWith(trip.trip_headsign)` holds for some member of the
exclusion set, i.e. when the headsign is a prefix of an excluded name. -/
def tripExcluded (headsign : String) : Bool :=
  excludes.any fun e => jsStartsWith e headsign

/-- The `Trip` record as the code builds it: `route` is `trip.route_id`
taken verbatim from the parsed row (no `parseInt`), every other numeric
field goes through `parseInt`. -/
structure TripRec where
  id : JSVal
  route : JSVal
  headsign : String
  direction : JSVal
  block : JSVal
  path : JSVal
deriving Repr, DecidableEq

/-- The mapping of one kept row in `Translink.getTrips` (translink.ts lines
194-201). -/
def mkTrip (row : CsvRow) : TripRec where
  id := jsParseIntVal (getField row "trip_id")
  route := .str (getField row "route_id")
  headsign := getField row "trip_headsign"
  direction := jsParseIntVal (getField row "direction_id")
  block := jsParseIntVal (getField row "block_id")
  path := jsParseIntVal (getField row "shape_id")

/-- The `flatMap` body of `Translink.getTrips` over the parsed rows. -/
def getTripsRows (rows : List CsvRow) : List TripRec :=
  rows.flatMap fun trip =>
    if tripExcluded (getField trip "trip_headsign") then [] else [mkTrip trip]

/-- `Translink.getTrips`: fetch the static table, then filter and map. -/
def getTrips (date : String) (response : HttpResponse) (entries : List ZipEntry) :
    Except StaticError (List TripRec) :=
  (getStatic date "trips.txt" response entries).map getTripsRows

/-! ## Service alerts (`Translink.getAlerts`) -/

/-- One entry of a `translation` block of the feed. -/
structure TranslationPart where
  text : String
  language : String
deriving Repr, DecidableEq

/-- A translated text block of the feed (`headerText`, `descriptionText`). -/
structure TranslatedText where
  translation : List TranslationPart
deriving Repr, DecidableEq

/-- An `activePeriod` entry. `endTime` models the `end` field; `none` is an
absent field, and the source treats an `end` of `0` the same way (the
JavaScript `||` tests truthiness). -/
structure ActivePeriod where
  start : Int
  endTime : Option Int
deriving Repr, DecidableEq

/-- An `informedEntity` member, with the fields `Translink.getAlerts`
reads. `routeType` is the enum ordinal (the source compares it to `3` with
a loose `==` after a JSON round-trip). `tripTripId` models
`(e.trip || ...).tripId`: `none` when `e.trip` or its `tripId` is absent.
`none` in `routeId`/`stopId` is an absent field (`parseInt(undefined)` is
`NaN`). -/
structure InformedEntity where
  routeType : Int
  routeId : Option String
  tripTripId : Option String
  stopId : Option String
deriving Repr, DecidableEq

/-- The `alert` payload of a feed entity, with the fields the code reads. -/
structure AlertMsg where
  informedEntity : List InformedEntity
  headerText : TranslatedText
  descriptionText : TranslatedText
  cause : String
  effect : String
  severityLevel : String
  activePeriod : List ActivePeriod
deriving Repr, DecidableEq

/-- A feed entity carrying an alert (`res.id` and `res.alert`). -/
structure AlertEntity where
  id : String
  alert : AlertMsg
deriving Repr, DecidableEq

/-- The `Alert` record that `Translink.getAlerts` builds. -/
structure AlertRec where
  insertId : JSVal
  id : JSVal
  text : String
  cause : String
  effect : String
  severity : String
  start : Int
  endTime : Int
  routes : List Int
  trips : List Int
  stops : List Int
deriving Repr, DecidableEq

/-- `Array.from(new Set(l))`: deduplication that keeps the first occurrence
of each value, in order. -/
def dedupFirst (l : List Int) : List Int :=
  l.foldl (fun acc v => if v ∈ acc then acc else acc ++ [v]) []

/-- The `selector` helper of `Translink.getAlerts` (translink.ts lines
155-158): parse each extracted id, drop the falsy results (`NaN` and `0`),
then deduplicate through a set. -/
def selector (entity : List InformedEntity) (f : InformedEntity → Option String) :
    List Int :=
  dedupFirst ((entity.map fun e => jsParseIntOpt (f e)).filterMap fun v =>
    match v with
    | some n => if n = 0 then none else some n
    | none => none)

/-- `text.translation.filter(part => part.language == 'en')[0].text`: taking
`.text` of the first English part throws a `TypeError` when there is none. -/
def englishText (t : TranslatedText) : Except String String :=
  match (t.translation.filter fun p => p.language = "en").head? with
  | some part => .ok part.text
  | none => .error "TypeError: no English translation"

/-- `raw.activePeriod[0]`: reading `.start` of an empty list's first element
throws a `TypeError`. -/
def firstPeriod (l : List ActivePeriod) : Except String ActivePeriod :=
  match l with
  | p :: _ => .ok p
  | [] => .error "TypeError: no active period"

/-- `raw.activePeriod[0].end || Math.floor(Date.now() / 1000)`. -/
def jsOrNow (v : Option Int) (now : Int) : Int :=
  match v with
  | some n => if n = 0 then now else n
  | none => now

/-- The filtered informed-entity list of `Translink.getAlerts` (lines
142-143): `raw.informedEntity.filter(entity => entity.routeType == 3)`,
the members whose route type is the bus ordinal. -/
def busEntities (raw : AlertMsg) : List InformedEntity :=
  raw.informedEntity.filter fun e => e.routeType = 3

/-- The body of the `flatMap` in `Translink.getAlerts` (translink.ts lines
136-174) for one feed entity: keep the informed entities whose route type
is the bus ordinal 3, return no alert when none remains, and otherwise
build the `Alert` record, with the route, trip and stop selectors applied
to the filtered informed-entity list only. A thrown `TypeError` (header
text first, then description, then active period) becomes the error
value. -/
def alertEntityOut (now : Int) (res : AlertEntity) : Except String (List AlertRec) :=
  if (busEntities res.alert).length ≤ 0 then .ok []
  else
    match englishText res.alert.headerText,
          englishText res.alert.descriptionText,
          firstPeriod res.alert.activePeriod with
    | .ok header, .ok desc, .ok period =>
      .ok [{ insertId := jsParseIntVal res.id
             id := jsParseIntVal res.id
             text := jsTrim (header ++ " " ++ desc)
             cause := res.alert.cause
             effect := res.alert.effect
             severity := res.alert.severityLevel
             start := period.start
             endTime := jsOrNow period.endTime now
             routes := selector (busEntities res.alert) (fun e => e.routeId)
             trips := selector (busEntities res.alert) (fun e => e.tripTripId)
             stops := selector (busEntities res.alert) (fun e => e.stopId) }]
    | .error e, _, _ => .error e
    | _, .error e, _ => .error e
    | _, _, .error e => .error e

/-- `Translink.getAlerts` after the feed has been decoded:
`response.flatMap(res => ...)`; an exception thrown for one entity aborts
the whole call. -/
def getAlerts (now : Int) : List AlertEntity → Except String (List AlertRec)
  | [] => .ok []
  | res :: rest => do
    let first ← alertEntityOut now res
    let more ← getAlerts now rest
    return first ++ more

end Translink

namespace Storage

open Translink (HttpResponse)

/-! ## The storage sink (`AwsStorage.put`, `GoogleStorage.put`) -/

/-- A record handed to a storage target. `orig` is an original domain
record: its `id` field when that is present and truthy (`none` otherwise)
and its JSON serialization. `wrap` is an `insertId`/`json` wrapper object
as `GoogleStorage.put` builds it; a wrapper has no `id` field. -/
inductive BqRow where
  | orig (id : Option String) (json : String)
  | wrap (insertId : String) (json : BqRow)
deriving Repr, DecidableEq

/-- `JSON.stringify` of a record as modelled here: an original record
serializes to its given serialization, a wrapper to the object written
out field by field. -/
def stringifyRow : BqRow → String
  | .orig _ json => json
  | .wrap i j => "\x7b\"insertId\":\"" ++ i ++ "\",\"json\":" ++ stringifyRow j ++ "\x7d"

/-- The `id` field of a record (`row.id`); a wrapper object has none. -/
def rowId : BqRow → Option String
  | .orig id _ => id
  | .wrap _ _ => none

/-- One wrapping step of `GoogleStorage.put` (translink.ts line 366):
`row => (insertId: row.id || JSON.stringify(row), json: row)`. -/
def wrapRow (r : BqRow) : BqRow :=
  .wrap ((rowId r).getD (stringifyRow r)) r

/-- The chunking loop of `GoogleStorage.put` (translink.ts lines 370-373):
`rows.slice(i, i + chunk)` for `i = 0, chunk, 2*chunk, ...`. The loop runs
no iteration on an empty list; the source only ever calls this with the
chunk size 10,000, so the `0` case is unreachable there. -/
def chunksOf {α : Type} : Nat → List α → List (List α)
  | _, [] => []
  | 0, _ :: _ => []
  | n + 1, x :: xs =>
    (x :: xs).take (n + 1) :: chunksOf (n + 1) ((x :: xs).drop (n + 1))
termination_by _ l => l.length
decreasing_by
  simp only [List.length_drop, List.length_cons]
  omega

/-- Every chunk the loop produces has at most `n` records. -/
theorem length_le_of_mem_chunksOf {α : Type} (n : Nat) (l c : List α)
    (h : c ∈ chunksOf n l) : c.length ≤ n := by
  match l, n with
  | [], _ => simp [chunksOf] at h
  | _ :: _, 0 => simp [chunksOf] at h
  | x :: xs, n + 1 =>
    rw [chunksOf] at h
    rcases List.mem_cons.mp h with h1 | h2
    · subst h1
      rw [List.length_take]
      exact min_le_left _ _
    · exact length_le_of_mem_chunksOf (n + 1) _ c h2
termination_by l.length
decreasing_by
  simp only [List.length_drop, List.length_cons]
  omega

/-- Every chunk the loop produces is non-empty. -/
theorem ne_nil_of_mem_chunksOf {α : Type} (n : Nat) (l c : List α)
    (h : c ∈ chunksOf n l) : c ≠ [] := by
  match l, n with
  | [], _ => simp [chunksOf] at h
  | _ :: _, 0 => simp [chunksOf] at h
  | x :: xs, n + 1 =>
    rw [chunksOf] at h
    rcases List.mem_cons.mp h with h1 | h2
    · subst h1
      simp [List.take_succ_cons]
    · exact ne_nil_of_mem_chunksOf (n + 1) _ c h2
termination_by l.length
decreasing_by
  simp only [List.length_drop, List.length_cons]
  omega

/-- The chunks are consecutive: concatenated back in order they give the
original list. -/
theorem flatten_chunksOf {α : Type} (n : Nat) (l : List α) (hn : n ≠ 0) :
    (chunksOf n l).flatten = l := by
  match l, n with
  | [], _ => simp [chunksOf]
  | _ :: _, 0 => exact absurd rfl hn
  | x :: xs, n + 1 =>
    rw [chunksOf]
    simp only [List.flatten_cons]
    rw [flatten_chunksOf (n + 1) _ (by omega)]
    exact List.take_append_drop _ _
termination_by l.length
decreasing_by
  simp only [List.length_drop, List.length_cons]
  omega

/-- `Promise.all(chunks).then(() => true)` as `GoogleStorage.put` uses it:
the call succeeds exactly when every chunk promise did, and otherwise
propagates a rejection. -/
def promiseAll : List (Except String Bool) → Except String Unit
  | [] => .ok ()
  | .ok _ :: rest => promiseAll rest
  | .error e :: _ => .error e

/-- `GoogleStorage.put` (translink.ts lines 364-401), with the HTTP layer
as a response oracle over the submitted row list. An empty batch returns
`false`; otherwise the rows are wrapped, a batch larger than 10,000 wrapped
rows recurses on each chunk and succeeds only when all chunks do, and a
small batch is submitted once, throwing on a non-2xx response. -/
def googlePut (respond : List BqRow → HttpResponse) (rows : List BqRow) :
    Except String Bool :=
  if rows.length ≤ 0 then .ok false
  else if _h : 10000 < (rows.map wrapRow).length then
    (promiseAll ((chunksOf 10000 (rows.map wrapRow)).attach.map fun c =>
      googlePut respond c.1)).map fun _ => true
  else
    let resp := respond (rows.map wrapRow)
    if resp.ok then .ok true
    else .error (toString resp.status ++ ": " ++ resp.statusText)
termination_by rows.length
decreasing_by
  have hc := length_le_of_mem_chunksOf 10000 _ _ c.2
  have hl : (rows.map wrapRow).length = rows.length := List.length_map _ _
  omega

/-- The row lists that `GoogleStorage.put` submits over HTTP, in order: the
trace of the POST bodies of the same recursion as `googlePut`. -/
def putSubmissions (rows : List BqRow) : List (List BqRow) :=
  if rows.length ≤ 0 then []
  else if _h : 10000 < (rows.map wrapRow).length then
    ((chunksOf 10000 (rows.map wrapRow)).attach.map fun c =>
      putSubmissions c.1).flatten
  else [rows.map wrapRow]
termination_by rows.length
decreasing_by
  have hc := length_le_of_mem_chunksOf 10000 _ _ c.2
  have hl : (rows.map wrapRow).length = rows.length := List.length_map _ _
  omega

/-- `AwsStorage.put` (translink.ts lines 330-351): an empty batch returns
`false`; otherwise the whole batch is PUT as one object, throwing on a
non-2xx response and returning `true` otherwise. -/
def awsPut (respond : List BqRow → HttpResponse) (rows : List BqRow) :
    Except String Bool :=
  if rows.length ≤ 0 then .ok false
  else
    let resp := respond rows
    if resp.ok then .ok true
    else .error (toString resp.status ++ ": " ++ resp.statusText)

/-- The object lists `AwsStorage.put` writes: one object holding the whole
batch, or nothing for an empty batch. -/
def awsSubmissions (rows : List BqRow) : List (List BqRow) :=
  if rows.length ≤ 0 then [] else [rows]

/-! ## The authenticating client (`GoogleClient`) -/

/-- The credential issuer's response to one refresh request
(`fetch(this.credentialUrl, ...)`): `text` is the token body. -/
structure IssuerResponse where
  ok : Bool
  text : String
deriving Repr, DecidableEq

/-- `GoogleClient.refreshToken` (translink.ts lines 455-475): request a
fresh token from the issuer, throw when the issuer answers non-2xx, and
otherwise cache the token under the credential key and return it. The
result pairs the token with the new cache content for the key. -/
def refreshToken (issuer : IssuerResponse) :
    Except String (String × Option String) :=
  if !issuer.ok then
    .error ("Could not refresh oauth token: " ++ issuer.text)
  else .ok (issuer.text, some issuer.text)

/-- `GoogleClient.getToken` (translink.ts lines 441-449): answer from the
credential cache when it holds a response for the key, and only refresh on
a cache miss. A cache hit returns the cached text and leaves the cache as
it is. -/
def getToken (issuer : IssuerResponse) (cache : Option String) :
    Except String (String × Option String) :=
  match cache with
  | some tok => .ok (tok, some tok)
  | none => refreshToken issuer

/-- `GoogleClient.fetch` (translink.ts lines 482-492), run for `fuel`
attempts: attach a bearer token from `getToken`, submit, and on status 401
recurse on itself with the resulting cache. `submit n tok` is the status
of the n-th submission when made with token `tok`; `issuer n` the issuer's
response to a refresh during the n-th attempt. The source recursion has no
bound and never touches the cache on a 401, so the `fuel` counter is the
only thing that stops this model: a `some` result is a response the source
returns, `none` means the recursion was still running after `fuel`
attempts. -/
def clientFetch (submit : Nat → String → Nat) (issuer : Nat → IssuerResponse) :
    Nat → Nat → Option String → Except String (Option (Nat × Option String))
  | 0, _, _ => .ok none
  | fuel + 1, attempt, cache => do
    let tc ← getToken (issuer attempt) cache
    let status := submit attempt tc.1
    if status = 401 then
      clientFetch submit issuer fuel (attempt + 1) tc.2
    else
      return some (status, tc.2)

end Storage

open Translink Storage

/-! ## Concrete inputs used by the claim checks -/

/-- A successful HTTP response. -/
def okResponse : HttpResponse where
  ok := true
  status := 200
  statusText := "OK"

/-- The member text of the spec's trips example: the header row and the
single data row. -/
def tripsCsv : String :=
  "trip_id,route_id,trip_headsign,direction_id,block_id,shape_id\n42,7,\"Downtown\",0,99,3\n"

/-- An archive holding exactly the trips example member. -/
def tripsArchive : List ZipEntry :=
  [{ path := "trips.txt", isDir := false, content := tripsCsv }]

/-! ## Claim C2 -/

/-- Claim C2 states that `getPositions` excludes a raw vehicle entity whose
longitude and latitude are both exactly zero. The source maps every decoded
entity without any coordinate check, so the zero-zero entity comes back as a
`Position` whose coordinates are both zero: the claim fails on this code
(the historical `parseBus` variant did drop such records). -/
theorem getPositions_returns_zero_zero_position :
    (getPositions [zeroVehicle]).map (fun p => (p.longitude, p.latitude)) = [(0, 0)]
    ∧ (getPositions [zeroVehicle]).length = 1 := by
  constructor <;> rfl

/-! ## Claim C7 -/

/-- Claim C7 states the schedule fetch is cached with a time-to-live of
approximately one year. The options `getStatic` passes tag the fetch with
`cacheTtl: 60 * 60`: 3600 seconds, one hour — less than a day, so nowhere
near a year. -/
theorem static_ttl_is_one_hour_not_a_year :
    staticFetchOptions.cacheTtl = 3600
    ∧ staticFetchOptions.cacheTtl < 24 * 60 * 60 := by
  constructor <;> decide

/-- Claim C7 amended: every schedule-snapshot fetch issued by `getStatic`
goes through the response cache (`cacheEverything: true`) with a
time-to-live of 3600 seconds (one hour); the realtime feed fetch of
`getFeed` passes no cache options at all. -/
theorem static_fetch_cache_options :
    staticFetchOptions = { cacheTtl := 3600, cacheEverything := true }
    ∧ feedFetchOptions = none := by
  constructor <;> rfl

/-! ## Claim C4 -/

/-- Claim C4: `getTrips` drops a parsed row exactly when its headsign
prefix-matches a name of the fixed exclusion set — the loop tests
`exclude.startsWith(trip.trip_headsign)`, i.e. the headsign is a prefix of
the excluded name — and maps every other row to a `Trip` record, in
order. -/
theorem getTripsRows_headsign_filter (rows : List CsvRow) :
    getTripsRows rows
      = (rows.filter fun r => !tripExcluded (getField r "trip_headsign")).map mkTrip
    ∧ (∀ h : String, tripExcluded h = true
        ↔ ∃ e ∈ excludes, h.data.isPrefixOf e.data = true) := by
  constructor
  · induction rows with
    | nil => rfl
    | cons r rs ih =>
      show (if tripExcluded (getField r "trip_headsign") then [] else [mkTrip r])
          ++ getTripsRows rs = _
      by_cases hr : tripExcluded (getField r "trip_headsign")
      · simp [hr, ih]
      · simp [hr, ih]
  · intro h
    simp [tripExcluded, jsStartsWith, List.any_eq_true]

/-! ## Claim C6 -/

/-- Claim C6 states the trips example row yields
`(id: 42, route: 7, ...)` with `route` a number. The code passes
`trip.route_id` through without `parseInt` (unlike every other numeric
field), so `route` is the parsed string "7", not the number 7 — against
the declared `Trip` interface. -/
theorem getTrips_example_row_types :
    getTrips "2020-01-03" okResponse tripsArchive
      = .ok [{ id := .num 42, route := .str "7", headsign := "Downtown",
               direction := .num 0, block := .num 99, path := .num 3 }]
    ∧ JSVal.str "7" ≠ JSVal.num 7 := by
  constructor
  · rfl
  · decide

/-! ## Claim C8 -/

/-- Claim C8: for a schedule fetch whose HTTP response succeeded, a missing
archive member fails the call with the error naming the date and resource;
a parse with a non-empty error list fails the whole call with the
structured error carrying the collected row errors (no partial rows are
returned, since an `Except.error` carries no rows at all); and otherwise
the parsed rows are returned. -/
theorem getStatic_failure_modes (date resource : String)
    (response : HttpResponse) (entries : List ZipEntry)
    (hok : response.ok = true) :
    (List.lookup resource (unzip entries [resource]) = none →
      getStatic date resource response entries
        = .error (.unknownFile date resource))
    ∧ (∀ d : String,
        List.lookup resource (unzip entries [resource]) = some d → d ≠ "" →
        ((papaParse d).errors ≠ [] →
          getStatic date resource response entries
            = .error (.parseFailure date (papaParse d).errors))
        ∧ ((papaParse d).errors = [] →
          getStatic date resource response entries
            = .ok (papaParse d).data)) := by
  refine ⟨fun hm => ?_, fun d hm hne => ⟨fun he => ?_, fun he => ?_⟩⟩
  · simp [getStatic, hok, hm]
  · have hp : 0 < (papaParse d).errors.length := List.length_pos.mpr he
    simp [getStatic, hok, hm, hne, hp]
  · simp [getStatic, hok, hm, hne, he]

/-- The hypothesis and conclusion of `getStatic_failure_modes` hold at a
concrete successful response and a concrete archive. -/
theorem getStatic_failure_modes_check :
    okResponse.ok = true
    ∧ ((List.lookup "trips.txt" (unzip tripsArchive ["trips.txt"]) = none →
        getStatic "2020-01-03" "trips.txt" okResponse tripsArchive
          = .error (.unknownFile "2020-01-03" "trips.txt"))
      ∧ (∀ d : String,
          List.lookup "trips.txt" (unzip tripsArchive ["trips.txt"]) = some d →
          d ≠ "" →
          ((papaParse d).errors ≠ [] →
            getStatic "2020-01-03" "trips.txt" okResponse tripsArchive
              = .error (.parseFailure "2020-01-03" (papaParse d).errors))
          ∧ ((papaParse d).errors = [] →
            getStatic "2020-01-03" "trips.txt" okResponse tripsArchive
              = .ok (papaParse d).data))) :=
  ⟨rfl, getStatic_failure_modes "2020-01-03" "trips.txt" okResponse tripsArchive rfl⟩

/-! ## Claim C1 -/

/-- Claim C1 states a 401 triggers the discard of the cached credential and
exactly one refresh-and-retry, a second 401 being fatal. The source instead
recurses on itself on every 401 and `getToken` answers every recursive call
from the untouched cache: with a stale credential cached and a submission
that keeps answering 401, the client issues attempt after attempt beyond
any bound — it never discards the credential, never refreshes, never
throws, for every fuel bound and at every attempt index. -/
theorem clientFetch_retries_unbounded_on_401 :
    (∀ (fuel attempt : Nat) (issuer : Nat → IssuerResponse),
      clientFetch (fun _ _ => 401) issuer fuel attempt (some "stale") = .ok none)
    ∧ (∀ (issuer : IssuerResponse) (tok : String),
      getToken issuer (some tok) = .ok (tok, some tok)) := by
  constructor
  · intro fuel
    induction fuel with
    | zero => intro attempt issuer; rfl
    | succ n ih =>
      intro attempt issuer
      exact ih (attempt + 1) issuer
  · intro issuer tok
    rfl

/-! ## Storage sink lemmas -/

/-- One unfolding step of the chunking loop on a non-empty list. -/
theorem chunksOf_step {α : Type} (n : Nat) (l : List α) (hn : n ≠ 0)
    (hl : l ≠ []) : chunksOf n l = l.take n :: chunksOf n (l.drop n) := by
  match l, n with
  | [], _ => exact absurd rfl hl
  | _ :: _, 0 => exact absurd rfl hn
  | x :: xs, n + 1 => rw [chunksOf]

/-- The chunking loop runs no iteration on an empty list. -/
theorem chunksOf_nil {α : Type} (n : Nat) : chunksOf n ([] : List α) = [] := by
  rw [chunksOf]

/-- A batch of 25,000 records is cut into exactly the three chunks of
10,000, 10,000 and 5,000 records. -/
theorem chunksOf_map_length_25000 {α : Type} (l : List α)
    (h : l.length = 25000) :
    (chunksOf 10000 l).map List.length = [10000, 10000, 5000] := by
  have h1 : l ≠ [] := by
    intro e; rw [e] at h; simp at h
  have e1 : (l.drop 10000).length = 15000 := by rw [List.length_drop, h]
  have h2 : l.drop 10000 ≠ [] := by
    intro e; rw [e] at e1; simp at e1
  have e2 : ((l.drop 10000).drop 10000).length = 5000 := by
    rw [List.length_drop, e1]
  have h3 : (l.drop 10000).drop 10000 ≠ [] := by
    intro e; rw [e] at e2; simp at e2
  have e3 : (((l.drop 10000).drop 10000).drop 10000) = [] := by
    apply List.length_eq_zero.mp
    rw [List.length_drop, e2]
  rw [chunksOf_step 10000 l (by omega) h1,
      chunksOf_step 10000 _ (by omega) h2,
      chunksOf_step 10000 _ (by omega) h3, e3, chunksOf_nil]
  simp [List.length_take, h, e1, e2]

/-- `Promise.all` fulfills exactly when every promise of the list does. -/
theorem promiseAll_ok_iff (l : List (Except String Bool)) :
    promiseAll l = .ok () ↔ ∀ x ∈ l, ∃ b, x = .ok b := by
  induction l with
  | nil => simp [promiseAll]
  | cons x rest ih =>
    cases x with
    | ok b =>
      simp only [promiseAll, List.mem_cons, ih]
      constructor
      · rintro h y (rfl | hy)
        · exact ⟨b, rfl⟩
        · exact h y hy
      · intro h y hy
        exact h y (Or.inr hy)
    | error e =>
      simp only [promiseAll]
      constructor
      · intro h
        exact absurd h (by simp)
      · intro h
        rcases h (.error e) (List.mem_cons_self _ _) with ⟨b, hb⟩
        exact absurd hb (by simp)

/-- `GoogleStorage.put` on a non-empty batch of at most 10,000 records:
one submission of the wrapped rows, `true` on success, a thrown error
otherwise. -/
theorem googlePut_small (respond : List BqRow → HttpResponse)
    (rows : List BqRow) (h0 : rows ≠ []) (h1 : rows.length ≤ 10000) :
    googlePut respond rows
      = if (respond (rows.map wrapRow)).ok then .ok true
        else .error (toString (respond (rows.map wrapRow)).status ++ ": "
          ++ (respond (rows.map wrapRow)).statusText) := by
  rw [googlePut]
  have hl : ¬ rows.length ≤ 0 := by
    have := List.length_pos.mpr h0; omega
  have hm : ¬ 10000 < (rows.map wrapRow).length := by
    rw [List.length_map]; omega
  rw [if_neg hl, dif_neg hm]

/-- `GoogleStorage.put` on a batch of more than 10,000 records recurses on
each chunk of the wrapped rows and succeeds only when all chunks do. -/
theorem googlePut_big (respond : List BqRow → HttpResponse)
    (rows : List BqRow) (h : 10000 < rows.length) :
    googlePut respond rows
      = (promiseAll ((chunksOf 10000 (rows.map wrapRow)).map
          (googlePut respond))).map fun _ => true := by
  rw [googlePut]
  have h0 : ¬ rows.length ≤ 0 := by omega
  have hm : 10000 < (rows.map wrapRow).length := by
    rw [List.length_map]; exact h
  rw [if_neg h0, dif_pos hm, List.attach_map_val]

/-- Flattening a list of singletons is mapping. -/
theorem flatten_singleton_map {α β : Type} (l : List α) (g : α → β) :
    (l.map fun a => [g a]).flatten = l.map g := by
  induction l with
  | nil => rfl
  | cons a t ih => simp [ih]

/-- A map over `attach` whose body is given pointwise by a plain function
is a plain map. -/
theorem attach_map_eq_map_of_eq {α β : Type} (l : List α)
    (f : {x // x ∈ l} → β) (g : α → β) (h : ∀ c : {x // x ∈ l}, f c = g c.1) :
    l.attach.map f = l.map g := by
  calc l.attach.map f
      = l.attach.map (fun c => g c.1) := List.map_congr_left (fun c _ => h c)
    _ = l.map g := List.attach_map_val l g

/-- The submission trace of a small non-empty batch: the wrapped rows,
submitted once. -/
theorem putSubmissions_small (rows : List BqRow) (h0 : rows ≠ [])
    (h1 : rows.length ≤ 10000) :
    putSubmissions rows = [rows.map wrapRow] := by
  rw [putSubmissions]
  have hl : ¬ rows.length ≤ 0 := by
    have := List.length_pos.mpr h0; omega
  have hm : ¬ 10000 < (rows.map wrapRow).length := by
    rw [List.length_map]; omega
  rw [if_neg hl, dif_neg hm]

/-- The submission trace of a batch of more than 10,000 records: every
chunk of the wrapped rows is wrapped a second time and submitted. -/
theorem putSubmissions_big (rows : List BqRow) (h : 10000 < rows.length) :
    putSubmissions rows
      = (chunksOf 10000 (rows.map wrapRow)).map (List.map wrapRow) := by
  rw [putSubmissions]
  have h0 : ¬ rows.length ≤ 0 := by omega
  have hm : 10000 < (rows.map wrapRow).length := by
    rw [List.length_map]; exact h
  rw [if_neg h0, dif_pos hm]
  have hstep : ∀ c ∈ chunksOf 10000 (rows.map wrapRow),
      putSubmissions c = [c.map wrapRow] := by
    intro c hc
    exact putSubmissions_small c (ne_nil_of_mem_chunksOf _ _ _ hc)
      (length_le_of_mem_chunksOf _ _ _ hc)
  have hattach : ((chunksOf 10000 (rows.map wrapRow)).attach.map fun c =>
      putSubmissions c.1)
      = (chunksOf 10000 (rows.map wrapRow)).map fun c => [c.map wrapRow] :=
    attach_map_eq_map_of_eq _ _ _ (fun c => hstep c.1 c.2)
  rw [hattach]
  exact flatten_singleton_map _ _

/-! ## Claim C3 -/

/-- Claim C3: a warehouse batch of 25,000 records is split into exactly the
three consecutive submission chunks of 10,000, 10,000 and 5,000 records
(consecutive because concatenating the chunks restores the wrapped batch);
each chunk is submitted independently, and the overall call reports
success exactly when every chunk submission got a successful response. -/
theorem googlePut_chunks_25000 (respond : List BqRow → HttpResponse)
    (rows : List BqRow) (h : rows.length = 25000) :
    (putSubmissions rows).map List.length = [10000, 10000, 5000]
    ∧ (chunksOf 10000 (rows.map wrapRow)).flatten = rows.map wrapRow
    ∧ (∀ (rs : List BqRow), 10000 < rs.length →
        ∀ s ∈ putSubmissions rs, s.length ≤ 10000)
    ∧ (googlePut respond rows = .ok true
        ↔ ∀ c ∈ chunksOf 10000 (rows.map wrapRow),
            (respond (c.map wrapRow)).ok = true) := by
  have hw : (rows.map wrapRow).length = 25000 := by
    rw [List.length_map, h]
  have hbig : 10000 < rows.length := by omega
  refine ⟨?_, ?_, ?_, ?_⟩
  · rw [putSubmissions_big rows hbig, List.map_map]
    have hcomp : (chunksOf 10000 (rows.map wrapRow)).map
        (List.length ∘ List.map wrapRow)
        = (chunksOf 10000 (rows.map wrapRow)).map List.length :=
      List.map_congr_left (fun c _ => List.length_map _ _)
    rw [hcomp]
    exact chunksOf_map_length_25000 _ hw
  · exact flatten_chunksOf 10000 _ (by omega)
  · intro rs hrs s hs
    rw [putSubmissions_big rs hrs] at hs
    rcases List.mem_map.mp hs with ⟨c, hc, rfl⟩
    rw [List.length_map]
    exact length_le_of_mem_chunksOf _ _ _ hc
  · rw [googlePut_big respond rows hbig]
    constructor
    · intro hok c hc
      cases hp : promiseAll ((chunksOf 10000 (rows.map wrapRow)).map
          (googlePut respond)) with
      | ok u =>
        cases u
        have hall := (promiseAll_ok_iff _).mp hp
        rcases hall (googlePut respond c) (List.mem_map_of_mem _ hc) with ⟨b, hb⟩
        rw [googlePut_small respond c (ne_nil_of_mem_chunksOf _ _ _ hc)
          (length_le_of_mem_chunksOf _ _ _ hc)] at hb
        by_cases hr : (respond (c.map wrapRow)).ok
        · exact hr
        · rw [if_neg hr] at hb
          exact absurd hb (by simp)
      | error e =>
        rw [hp] at hok
        exact absurd hok (by simp [Except.map])
    · intro hall
      have hev : ∀ x ∈ (chunksOf 10000 (rows.map wrapRow)).map
          (googlePut respond), ∃ b, x = .ok b := by
        intro x hx
        rcases List.mem_map.mp hx with ⟨c, hc, rfl⟩
        rw [googlePut_small respond c (ne_nil_of_mem_chunksOf _ _ _ hc)
          (length_le_of_mem_chunksOf _ _ _ hc), if_pos (hall c hc)]
        exact ⟨true, rfl⟩
      rw [(promiseAll_ok_iff _).mpr hev]
      rfl

/-- The hypothesis and conclusion of `googlePut_chunks_25000` hold at a
concrete batch of 25,000 records. -/
theorem googlePut_chunks_25000_check :
    (List.replicate 25000 (BqRow.orig none "r")).length = 25000
    ∧ ((putSubmissions (List.replicate 25000 (BqRow.orig none "r"))).map
          List.length = [10000, 10000, 5000]
      ∧ (chunksOf 10000 ((List.replicate 25000 (BqRow.orig none "r")).map
          wrapRow)).flatten
          = (List.replicate 25000 (BqRow.orig none "r")).map wrapRow
      ∧ (∀ (rs : List BqRow), 10000 < rs.length →
          ∀ s ∈ putSubmissions rs, s.length ≤ 10000)
      ∧ (googlePut (fun _ => okResponse)
            (List.replicate 25000 (BqRow.orig none "r")) = .ok true
          ↔ ∀ c ∈ chunksOf 10000 ((List.replicate 25000
              (BqRow.orig none "r")).map wrapRow),
              ((fun _ => okResponse) (c.map wrapRow)).ok = true)) :=
  ⟨List.length_replicate 25000 _,
   googlePut_chunks_25000 (fun _ => okResponse) _ (List.length_replicate 25000 _)⟩

/-! ## Claim C9 -/

/-- Claim C9: on a batch of more than 10,000 records the recursive chunk
calls re-wrap the already-wrapped rows: every submitted row is a double
wrapper, the outer wrapper's `insertId` is the JSON serialization of the
inner wrapper (a wrapper has no `id` field, so `row.id` is undefined and
the serialization is used), and the submitted `json` payload is the inner
wrapper, not the original record. -/
theorem putSubmissions_rows_wrapped_twice (rows : List BqRow)
    (h : 10000 < rows.length) :
    putSubmissions rows
      = (chunksOf 10000 (rows.map wrapRow)).map (List.map wrapRow)
    ∧ (∀ s ∈ putSubmissions rows, ∀ x ∈ s, ∃ r ∈ rows, x = wrapRow (wrapRow r))
    ∧ (∀ r : BqRow, rowId (wrapRow r) = none)
    ∧ (∀ r : BqRow, wrapRow (wrapRow r)
        = .wrap (stringifyRow (wrapRow r)) (wrapRow r)) := by
  have hb := putSubmissions_big rows h
  refine ⟨hb, ?_, fun r => rfl, fun r => rfl⟩
  intro s hs x hx
  rw [hb] at hs
  rcases List.mem_map.mp hs with ⟨c, hc, rfl⟩
  rcases List.mem_map.mp hx with ⟨y, hy, rfl⟩
  have hyl : y ∈ rows.map wrapRow := by
    rw [← flatten_chunksOf 10000 (rows.map wrapRow) (by omega)]
    exact List.mem_flatten.mpr ⟨c, hc, hy⟩
  rcases List.mem_map.mp hyl with ⟨r, hr, rfl⟩
  exact ⟨r, hr, rfl⟩

/-- The hypothesis and conclusion of `putSubmissions_rows_wrapped_twice`
hold at a concrete batch of 10,001 records. -/
theorem putSubmissions_rows_wrapped_twice_check :
    10000 < (List.replicate 10001 (BqRow.orig none "r")).length
    ∧ (putSubmissions (List.replicate 10001 (BqRow.orig none "r"))
        = (chunksOf 10000 ((List.replicate 10001 (BqRow.orig none "r")).map
            wrapRow)).map (List.map wrapRow)
      ∧ (∀ s ∈ putSubmissions (List.replicate 10001 (BqRow.orig none "r")),
          ∀ x ∈ s, ∃ r ∈ List.replicate 10001 (BqRow.orig none "r"),
            x = wrapRow (wrapRow r))
      ∧ (∀ r : BqRow, rowId (wrapRow r) = none)
      ∧ (∀ r : BqRow, wrapRow (wrapRow r)
          = .wrap (stringifyRow (wrapRow r)) (wrapRow r))) :=
  ⟨by rw [List.length_replicate]; omega,
   putSubmissions_rows_wrapped_twice _ (by rw [List.length_replicate]; omega)⟩

/-! ## Claim C10 -/

/-- Claim C10: for a non-empty batch both storage targets either throw or
return `true`; `false` comes back only for an empty batch, and then
nothing is submitted at all. -/
theorem storage_put_false_only_when_empty
    (respondA respondG : List BqRow → HttpResponse) (rows : List BqRow) :
    (rows ≠ [] →
      (awsPut respondA rows = .ok true ∨ ∃ e, awsPut respondA rows = .error e)
      ∧ (googlePut respondG rows = .ok true
        ∨ ∃ e, googlePut respondG rows = .error e))
    ∧ (rows = [] →
      awsPut respondA rows = .ok false ∧ googlePut respondG rows = .ok false
      ∧ awsSubmissions rows = [] ∧ putSubmissions rows = []) := by
  constructor
  · intro hne
    constructor
    · have hl : ¬ rows.length ≤ 0 := by
        have := List.length_pos.mpr hne; omega
      unfold awsPut
      rw [if_neg hl]
      by_cases hok : (respondA rows).ok
      · left
        show (if (respondA rows).ok then Except.ok true
          else .error (toString (respondA rows).status ++ ": "
            ++ (respondA rows).statusText)) = Except.ok true
        rw [if_pos hok]
      · right
        refine ⟨toString (respondA rows).status ++ ": "
          ++ (respondA rows).statusText, ?_⟩
        show (if (respondA rows).ok then Except.ok true
          else .error (toString (respondA rows).status ++ ": "
            ++ (respondA rows).statusText)) = _
        rw [if_neg hok]
    · by_cases hbig : 10000 < rows.length
      · rw [googlePut_big respondG rows hbig]
        cases hp : promiseAll ((chunksOf 10000 (rows.map wrapRow)).map
            (googlePut respondG)) with
        | ok u => left; cases u; rfl
        | error e => right; exact ⟨e, rfl⟩
      · rw [googlePut_small respondG rows hne (by omega)]
        by_cases hok : (respondG (rows.map wrapRow)).ok
        · left; rw [if_pos hok]
        · right; exact ⟨_, if_neg hok⟩
  · intro he
    subst he
    refine ⟨rfl, ?_, rfl, ?_⟩
    · rw [googlePut]
      simp
    · rw [putSubmissions]
      simp

/-! ## Claim C5 -/

/-- The first English translation's text, or the empty string when there is
one — the total form of the extraction, used to state what an included
alert carries. -/
def englishTextD (t : TranslatedText) : String :=
  (((t.translation.filter fun p => p.language = "en").head?).map
    TranslationPart.text).getD ""

/-- The `Alert` record `getAlerts` emits for an included entity: every id
list is drawn from the route-type-3 informed entities only, deduplicated
with falsy ids dropped by `selector`. -/
def mkAlertOut (now : Int) (res : AlertEntity) : AlertRec where
  insertId := jsParseIntVal res.id
  id := jsParseIntVal res.id
  text := jsTrim (englishTextD res.alert.headerText ++ " "
    ++ englishTextD res.alert.descriptionText)
  cause := res.alert.cause
  effect := res.alert.effect
  severity := res.alert.severityLevel
  start := ((res.alert.activePeriod.head?).getD { start := 0, endTime := none }).start
  endTime := jsOrNow
    ((res.alert.activePeriod.head?).getD { start := 0, endTime := none }).endTime now
  routes := selector (busEntities res.alert) (fun e => e.routeId)
  trips := selector (busEntities res.alert) (fun e => e.tripTripId)
  stops := selector (busEntities res.alert) (fun e => e.stopId)

/-- An alert entity that does not make the extraction throw: both text
blocks have an English part and there is an active period. -/
def wellFormedAlert (res : AlertEntity) : Prop :=
  (res.alert.headerText.translation.filter fun p => p.language = "en") ≠ []
  ∧ (res.alert.descriptionText.translation.filter fun p => p.language = "en") ≠ []
  ∧ res.alert.activePeriod ≠ []

/-- `Except.ok` passes through `bind`. -/
theorem exceptBindOk {ε α β : Type} (x : α) (f : α → Except ε β) :
    (Except.ok (ε := ε) x >>= f) = f x := rfl

/-- The per-entity mapping of a well-formed alert never throws: it yields
nothing when no informed entity has route type 3 and the built record
otherwise. -/
theorem alertEntityOut_eq (now : Int) (res : AlertEntity)
    (hw : wellFormedAlert res) :
    alertEntityOut now res
      = .ok (if (busEntities res.alert).length ≤ 0 then []
             else [mkAlertOut now res]) := by
  obtain ⟨hH, hD, hP⟩ := hw
  by_cases hbus : (busEntities res.alert).length ≤ 0
  · rw [alertEntityOut, if_pos hbus, if_pos hbus]
  · obtain ⟨ph, th, eh⟩ := List.exists_cons_of_ne_nil hH
    obtain ⟨pd, td, ed⟩ := List.exists_cons_of_ne_nil hD
    obtain ⟨pp, tp, ep⟩ := List.exists_cons_of_ne_nil hP
    have h1 : englishText res.alert.headerText = .ok ph.text := by
      simp [englishText, eh]
    have h2 : englishText res.alert.descriptionText = .ok pd.text := by
      simp [englishText, ed]
    have h3 : firstPeriod res.alert.activePeriod = .ok pp := by
      simp [firstPeriod, ep]
    rw [alertEntityOut, if_neg hbus, if_neg hbus, h1, h2, h3]
    simp [mkAlertOut, englishTextD, eh, ed, ep]

/-- Claim C5, amended: `getAlerts` excludes every alert entity with no
route-type-3 informed entity, includes every alert with at least one, and
for an included alert emits the record whose route, trip and stop lists
are built from the route-type-3 informed entities only — deduplicated via
a set, with zero/falsy ids dropped, as `selector` does. -/
theorem getAlerts_only_bus_ids (now : Int) (entities : List AlertEntity)
    (hw : ∀ res ∈ entities, wellFormedAlert res) :
    getAlerts now entities
      = .ok ((entities.filter fun res =>
          0 < (busEntities res.alert).length).map (mkAlertOut now)) := by
  induction entities with
  | nil => rfl
  | cons res rest ih =>
    have hres := hw res (List.mem_cons_self _ _)
    have hrest : ∀ r ∈ rest, wellFormedAlert r :=
      fun r hr => hw r (List.mem_cons_of_mem _ hr)
    show (alertEntityOut now res >>= fun first =>
      getAlerts now rest >>= fun more => Except.ok (first ++ more)) = _
    rw [alertEntityOut_eq now res hres, exceptBindOk, ih hrest, exceptBindOk]
    by_cases hc : (busEntities res.alert).length ≤ 0
    · have hno : ¬ 0 < (busEntities res.alert).length := by omega
      simp [hc, List.filter_cons, hno]
    · have hyes : 0 < (busEntities res.alert).length := by omega
      simp [hc, List.filter_cons, hyes]

/-- The alert of the counterexample: one informed entity of route type 3
with route id 5, one of route type 2 with route id 7. -/
def cexAlert : AlertEntity where
  id := "100"
  alert := {
    informedEntity := [
      { routeType := 3, routeId := some "5", tripTripId := none, stopId := none },
      { routeType := 2, routeId := some "7", tripTripId := none, stopId := none }],
    headerText := { translation := [{ text := "Detour", language := "en" }] },
    descriptionText := { translation := [{ text := "On route", language := "en" }] },
    cause := "CONSTRUCTION",
    effect := "DETOUR",
    severityLevel := "INFO",
    activePeriod := [{ start := 1000, endTime := some 2000 }] }

/-- Claim C5 fails as stated: the alert is included (it has a route-type-3
informed entity), its informed entities carry the route ids 5 and 7, but
the emitted `routes` list is `[5]` — the id 7 of the route-type-2 entity
is missing, so the lists are filtered by route type after all. -/
theorem getAlerts_routes_filtered_by_type :
    getAlerts 0 [cexAlert] = .ok [mkAlertOut 0 cexAlert]
    ∧ (mkAlertOut 0 cexAlert).routes = [5]
    ∧ some "7" ∈ cexAlert.alert.informedEntity.map InformedEntity.routeId
    ∧ (7 : Int) ∉ (mkAlertOut 0 cexAlert).routes := by
  refine ⟨rfl, rfl, ?_, ?_⟩
  · decide
  · decide

/-- The hypothesis and conclusion of `getAlerts_only_bus_ids` hold at the
concrete one-alert feed. -/
theorem getAlerts_only_bus_ids_check :
    (∀ res ∈ [cexAlert], wellFormedAlert res)
    ∧ getAlerts 0 [cexAlert]
        = .ok (([cexAlert].filter fun res =>
            0 < (busEntities res.alert).length).map (mkAlertOut 0)) :=
  ⟨fun res hres => by
      rw [List.mem_singleton] at hres
      subst hres
      exact ⟨by decide, by decide, by decide⟩,
    getAlerts_only_bus_ids 0 [cexAlert] (fun res hres => by
      rw [List.mem_singleton] at hres
      subst hres
      exact ⟨by decide, by decide, by decide⟩)⟩
